import Mathlib

/-!
Verification development for the opencode-quota repository, covering the
usage aggregation / pricing-mapping engine (src/lib/quota-stats.ts), the
Google token cache (appended to src/lib/copilot.ts in this snapshot) and
the multi-account quota orchestrator (src/lib/google.ts).

The embedding is shallow: every TypeScript function the claims touch is
translated into an executable Lean definition.  JavaScript numbers used as
token counts are modelled as naturals, monetary rates as rationals; the
external pricing catalog (lookupCost from modelsdev-pricing.js, a black box
per the specification) is a parameter of type `Catalog`; the sha256 digest
used by the cache-key derivation is likewise a parameter.
-/

namespace OCQ

/-! ## Character/string helpers (ASCII semantics of the JS string methods)

Strings are handled through their character lists so that every operation is
kernel-reducible; model identifiers are ASCII, so ASCII case folding models
`String.prototype.toLowerCase` faithfully on the inputs that occur. -/

/-- ASCII lowercase of one character. -/
def lowChar (c : Char) : Char :=
  if 65 ≤ c.toNat ∧ c.toNat ≤ 90 then Char.ofNat (c.toNat + 32) else c

/-- `s.toLowerCase()` on the character list. -/
def lowerList (l : List Char) : List Char := l.map lowChar

/-- `s.trim()` on the character list. -/
def trimList (l : List Char) : List Char :=
  ((l.dropWhile Char.isWhitespace).reverse.dropWhile Char.isWhitespace).reverse

/-- JS `\w` character class: ASCII letters, digits and underscore. -/
def isWordChar (c : Char) : Bool := c.isAlphanum || c = '_'

/-- The character class `[a-z-]` under the `/i` flag: ASCII letters or a dash. -/
def isGrpChar (c : Char) : Bool := c.isAlpha || c = '-'

/-- List-level starts-with test (used to model `String.prototype.startsWith`). -/
def isPrefixList : List Char → List Char → Bool
  | [], _ => true
  | _ :: _, [] => false
  | p :: ps, c :: cs => p = c && isPrefixList ps cs

/-- List-level substring test (used to model `String.prototype.includes`). -/
def containsList (pat : List Char) : List Char → Bool
  | [] => pat.isEmpty
  | c :: rest => isPrefixList pat (c :: rest) || containsList pat rest

/-- `l.startsWith pre` for a character list. -/
def strStartsL (l : List Char) (pre : String) : Bool := isPrefixList pre.data l

/-- `l.endsWith suf` for a character list. -/
def strEndsL (l : List Char) (suf : String) : Bool :=
  isPrefixList suf.data.reverse l.reverse

/-- `l.includes sub` for a character list. -/
def strContainsL (l : List Char) (sub : String) : Bool := containsList sub.data l

/-- Case-insensitively consume the (lowercase) pattern from the front of the
input, returning the remainder on success. -/
def dropCI : List Char → List Char → Option (List Char)
  | [], l => some l
  | _ :: _, [] => none
  | p :: ps, c :: cs => if lowChar c = p then dropCI ps cs else none

/-! ## normalizeModelId (quota-stats.ts lines 111-124)

The two regex substitutions are embedded exactly: JS `String.replace` with a
non-global regex rewrites only the leftmost match, `/i` makes letter classes
case-insensitive, and `\b` is the usual ASCII word boundary. -/

/-- Matcher for the suffix `-4.5\b` of `/claude-([a-z-]+)-4\.5\b/i`:
returns the rest of the input after the literal `-4.5` when the following
character is not a word character. -/
def matchTail45 : List Char → Option (List Char)
  | '-' :: '4' :: '.' :: '5' :: rest =>
    match rest with
    | [] => some []
    | c :: _ => if isWordChar c then none else some rest
  | _ => none

/-- Greedy-with-backtracking matcher for `([a-z-]+)-4\.5\b`: returns the
captured group and the rest after the whole match. -/
def matchGrp : List Char → Option (List Char × List Char)
  | [] => none
  | c :: rest =>
    if isGrpChar c then
      match matchGrp rest with
      | some (g, r) => some (c :: g, r)
      | none =>
        match matchTail45 rest with
        | some r => some ([c], r)
        | none => none
    else none

/-- Try to match `/claude-([a-z-]+)-4\.5\b/i` at the head of the input. -/
def matchClaudeAt (l : List Char) : Option (List Char × List Char) :=
  match dropCI "claude-".toList l with
  | none => none
  | some r => matchGrp r

/-- `s.replace(/claude-([a-z-]+)-4\.5\b/i, "claude-$1-4-5")`:
rewrite the leftmost match only. -/
def replaceClaude45 : List Char → List Char
  | [] => []
  | c :: rest =>
    match matchClaudeAt (c :: rest) with
    | some (g, r) => "claude-".toList ++ g ++ "-4-5".toList ++ r
    | none => c :: replaceClaude45 rest

/-- Try to match `glm-(\d+)\.(\d+)-free\b` (the part after the leading `\b`)
at the head of the input, returning the rewritten output `glm-$1.$2` followed
by the rest. -/
def matchGlmAt (l : List Char) : Option (List Char) :=
  match dropCI "glm-".toList l with
  | none => none
  | some r1 =>
    let d1 := r1.takeWhile Char.isDigit
    if d1.isEmpty then none
    else
      match r1.drop d1.length with
      | '.' :: r2 =>
        let d2 := r2.takeWhile Char.isDigit
        if d2.isEmpty then none
        else
          match dropCI "-free".toList (r2.drop d2.length) with
          | some r3 =>
            match r3 with
            | [] => some ("glm-".toList ++ d1 ++ ['.'] ++ d2)
            | c :: _ =>
              if isWordChar c then none
              else some ("glm-".toList ++ d1 ++ ['.'] ++ d2 ++ r3)
          | none => none
      | _ => none

/-- Scan for the leftmost match of `/\bglm-(\d+)\.(\d+)-free\b/i`, tracking
whether the previous character was a word character (for the leading `\b`). -/
def glmScan (prevWord : Bool) : List Char → List Char
  | [] => []
  | c :: rest =>
    if prevWord then c :: glmScan (isWordChar c) rest
    else
      match matchGlmAt (c :: rest) with
      | some out => out
      | none => c :: glmScan (isWordChar c) rest

/-- quota-stats.ts `normalizeModelId` (`slice(12)` and `slice(0, -9)` become
`drop 12` and `take (length - 9)` on the character list). -/
def normalizeModelId (raw : String) : String :=
  let l0 := trimList raw.data
  -- routing prefixes
  let l1 := if strStartsL (lowerList l0) "antigravity-" then l0.drop 12 else l0
  -- common subscription variants
  let l2 := if strEndsL (lowerList l1) "-thinking" then l1.take (l1.length - 9) else l1
  -- claude 4.5 -> 4-5 (models.dev uses dash)
  let l3 := replaceClaude45 l2
  -- special: "glm-4.7-free" -> "glm-4.7"
  let l4 := glmScan false l3
  -- internal OpenCode alias (Zen)
  if lowerList l4 = "big-pickle".data then "glm-4.7" else String.mk l4

/-! ## inferOfficialProviderFromModelId (quota-stats.ts lines 126-140) -/

/-- quota-stats.ts `inferOfficialProviderFromModelId`. -/
def inferOfficialProviderFromModelId (modelId : String) : Option String :=
  let lower := lowerList modelId.data
  if strStartsL lower "claude" then some "anthropic"
  else if strStartsL lower "gpt" || strStartsL lower "o" then some "openai"
  else if strStartsL lower "gemini" then some "google"
  else if strStartsL lower "kimi" then some "moonshotai"
  else if strStartsL lower "glm" then some "zai"
  else if strContainsL lower "claude" then some "anthropic"
  else if strContainsL lower "gemini" then some "google"
  else if strContainsL lower "gpt" then some "openai"
  else if strContainsL lower "kimi" then some "moonshotai"
  else if strContainsL lower "glm" then some "zai"
  else none

/-! ## Pricing catalog, pricing keys, mapping (quota-stats.ts lines 13-31, 142-218) -/

/-- A models.dev catalog entry: USD-per-million-token rates; fields the
catalog may omit are `Option`. -/
structure ModelCost where
  input : Option ℚ
  output : Option ℚ
  cache_read : Option ℚ
  cache_write : Option ℚ
  reasoning : Option ℚ
deriving DecidableEq

/-- The external pricing catalog `lookupCost` (black box per the spec). -/
abbrev Catalog := String → String → Option ModelCost

/-- quota-stats.ts `PricedKey`. -/
structure PricedKey where
  provider : String
  model : String
deriving DecidableEq

/-- quota-stats.ts `UnknownKey` (optional fields model `undefined`). -/
structure UnknownKey where
  sourceProviderID : String
  sourceModelID : String
  mappedProvider : Option String
  mappedModel : Option String
deriving DecidableEq

/-- Result of `mapToOfficialPricingKey`:
`{ok: true, key}` or `{ok: false, unknown}`. -/
inductive MapResult where
  | ok (key : PricedKey)
  | unknown (u : UnknownKey)
deriving DecidableEq

/-- JS `??` on optional values. -/
def jsCoalesce (a b : Option ℚ) : Option ℚ :=
  match a with
  | some v => some v
  | none => b

/-- The pricing-key resolution of `mapToOfficialPricingKey` once a provider
has been inferred (quota-stats.ts lines 167-191): the moonshotai and google
catalog-compatibility fallbacks, then the primary normalized name. -/
def resolveOfficialKey (lookupCost : Catalog)
    (inferredProvider normalizedModel : String) : PricedKey :=
  -- Kimi naming: treat kimi-k2 as kimi-k2-thinking for pricing.
  if inferredProvider = "moonshotai" ∧ normalizedModel = "kimi-k2" ∧
      (lookupCost "moonshotai" "kimi-k2-thinking").isSome then
    ⟨"moonshotai", "kimi-k2-thinking"⟩
  -- Gemini naming fallback: some logs omit -preview.
  else if inferredProvider = "google" ∧ normalizedModel = "gemini-3-pro" ∧
      (lookupCost "google" "gemini-3-pro").isNone ∧
      (lookupCost "google" "gemini-3-pro-preview").isSome then
    ⟨"google", "gemini-3-pro-preview"⟩
  else if inferredProvider = "google" ∧ normalizedModel = "gemini-3-flash" ∧
      (lookupCost "google" "gemini-3-flash").isNone ∧
      (lookupCost "google" "gemini-3-flash-preview").isSome then
    ⟨"google", "gemini-3-flash-preview"⟩
  else
    ⟨inferredProvider, normalizedModel⟩

/-- quota-stats.ts `mapToOfficialPricingKey`, with the external `lookupCost`
as an explicit `Catalog` parameter.  The guard `!source.modelID` is JS
falsiness, so the empty string is treated as absent. -/
def mapToOfficialPricingKey (lookupCost : Catalog)
    (providerID? modelID? : Option String) : MapResult :=
  let srcProvider := providerID?.getD "unknown"
  let srcModel := modelID?.getD "unknown"
  match modelID? with
  | none => .unknown ⟨srcProvider, srcModel, none, none⟩
  | some m =>
    if m = "" then .unknown ⟨srcProvider, srcModel, none, none⟩
    else
      let normalizedModel := normalizeModelId m
      match inferOfficialProviderFromModelId normalizedModel with
      | none => .unknown ⟨srcProvider, srcModel, none, some normalizedModel⟩
      | some inferredProvider =>
        .ok (resolveOfficialKey lookupCost inferredProvider normalizedModel)

/-! ## Token buckets and the cost calculator (quota-stats.ts lines 85-97, 194-218) -/

/-- quota-stats.ts `TokenBuckets` (all fields non-negative integers). -/
structure TokenBuckets where
  input : ℕ
  output : ℕ
  reasoning : ℕ
  cache_read : ℕ
  cache_write : ℕ
deriving DecidableEq

/-- quota-stats.ts `emptyBuckets`. -/
def emptyBuckets : TokenBuckets := ⟨0, 0, 0, 0, 0⟩

/-- quota-stats.ts `addBuckets`. -/
def addBuckets (a b : TokenBuckets) : TokenBuckets :=
  ⟨a.input + b.input, a.output + b.output, a.reasoning + b.reasoning,
    a.cache_read + b.cache_read, a.cache_write + b.cache_write⟩

/-- quota-stats.ts `calculateCostUsd`; `none` models `{ok: false}`. -/
def calculateCostUsd (lookupCost : Catalog) (provider model : String)
    (tokens : TokenBuckets) : Option ℚ :=
  match lookupCost provider model with
  | none => none
  | some cost =>
    -- models.dev costs are USD per 1M tokens
    let perToken : Option ℚ → ℚ := fun o => o.getD 0 / 1000000
    let inRate := perToken cost.input
    let outRate := perToken cost.output
    let cacheReadRate := perToken (jsCoalesce cost.cache_read cost.input)
    let cacheWriteRate := perToken (jsCoalesce cost.cache_write cost.input)
    let reasoningRate := perToken (jsCoalesce cost.reasoning cost.output)
    some ((tokens.input : ℚ) * inRate + (tokens.output : ℚ) * outRate +
      (tokens.cache_read : ℚ) * cacheReadRate +
      (tokens.cache_write : ℚ) * cacheWriteRate +
      (tokens.reasoning : ℚ) * reasoningRate)

/-! ## Usage records and the aggregation fold (quota-stats.ts lines 99-109, 220-358)

JS `Map` is modelled as an insertion-ordered association list; `upsert`
mirrors `map.get`/`map.set`.  The unknown map is keyed by the `UnknownKey`
value itself: the source keys it by `JSON.stringify(unknownKey)`, which is
injective on these records (undefined fields are omitted, and no record with
`mappedProvider` set ever has `mappedModel` unset). -/

/-- The optional `tokens.cache` object of an OpenCode message. -/
structure RawCache where
  read : Option ℕ
  write : Option ℕ
deriving DecidableEq

/-- The optional `tokens` object of an OpenCode message; non-numeric fields
are modelled as absent, which the source also treats as 0. -/
structure RawTokens where
  input : Option ℕ
  output : Option ℕ
  reasoning : Option ℕ
  cache : Option RawCache
deriving DecidableEq

/-- The fields of an `OpenCodeMessage` that `aggregateUsage` consumes. -/
structure Msg where
  providerID : Option String
  modelID : Option String
  sessionID : String
  tokens : Option RawTokens
deriving DecidableEq

/-- quota-stats.ts `messageBuckets`. -/
def messageBuckets (msg : Msg) : TokenBuckets :=
  match msg.tokens with
  | none => emptyBuckets
  | some t =>
    ⟨t.input.getD 0, t.output.getD 0, t.reasoning.getD 0,
      (t.cache.bind RawCache.read).getD 0, (t.cache.bind RawCache.write).getD 0⟩

/-- quota-stats.ts `AggregateRow`. -/
structure AggregateRow where
  key : PricedKey
  tokens : TokenBuckets
  costUsd : ℚ
  messageCount : ℕ
deriving DecidableEq

/-- quota-stats.ts `SessionRow`. -/
structure SessionRow where
  sessionID : String
  title : Option String
  tokens : TokenBuckets
  costUsd : ℚ
  messageCount : ℕ
deriving DecidableEq

/-- quota-stats.ts `SourceProviderRow`. -/
structure SourceProviderRow where
  providerID : String
  tokens : TokenBuckets
  costUsd : ℚ
  messageCount : ℕ
deriving DecidableEq

/-- quota-stats.ts `SourceModelRow`. -/
structure SourceModelRow where
  sourceProviderID : String
  sourceModelID : String
  tokens : TokenBuckets
  costUsd : ℚ
  messageCount : ℕ
deriving DecidableEq

/-- quota-stats.ts `UnknownRow`. -/
structure UnknownRow where
  key : UnknownKey
  tokens : TokenBuckets
  messageCount : ℕ
deriving DecidableEq

/-- `map.set k (upd (map.get k))`, inserting `ini` when the key is new;
JS `Map` keeps existing keys in place and appends new ones. -/
def upsert {κ α : Type} [DecidableEq κ] (k : κ) (upd : α → α) (ini : α) :
    List (κ × α) → List (κ × α)
  | [] => [(k, ini)]
  | (k0, a) :: rest =>
    if k0 = k then (k0, upd a) :: rest else (k0, a) :: upsert k upd ini rest

/-- The accumulator of the `aggregateUsage` loop: the five maps and the
running totals. -/
structure AggState where
  byModel : List (String × AggregateRow)
  bySession : List (String × SessionRow)
  bySourceProvider : List (String × SourceProviderRow)
  bySourceModel : List (String × SourceModelRow)
  unknownRows : List (UnknownKey × UnknownRow)
  pricedTotals : TokenBuckets
  unknownTotals : TokenBuckets
  costTotal : ℚ

/-- The empty accumulator at the top of `aggregateUsage`. -/
def initAggState : AggState := ⟨[], [], [], [], [], emptyBuckets, emptyBuckets, 0⟩

/-- The body of the `for (const msg of messages)` loop of `aggregateUsage`
(quota-stats.ts lines 248-358); `sessionsIdx` models `readAllSessionsIndex`
restricted to titles. -/
def aggregateStep (lookupCost : Catalog) (sessionsIdx : String → Option String)
    (s : AggState) (msg : Msg) : AggState :=
  let tokens := messageBuckets msg
  match mapToOfficialPricingKey lookupCost msg.providerID msg.modelID with
  | .unknown u =>
    { s with
      unknownTotals := addBuckets s.unknownTotals tokens
      unknownRows := upsert u
        (fun row => { row with tokens := addBuckets row.tokens tokens,
                               messageCount := row.messageCount + 1 })
        ⟨u, tokens, 1⟩ s.unknownRows }
  | .ok key =>
    match calculateCostUsd lookupCost key.provider key.model tokens with
    | none =>
      -- Mapping succeeded but pricing missing.
      let u : UnknownKey :=
        ⟨msg.providerID.getD "unknown", msg.modelID.getD "unknown",
          some key.provider, some key.model⟩
      { s with
        unknownTotals := addBuckets s.unknownTotals tokens
        unknownRows := upsert u
          (fun row => { row with tokens := addBuckets row.tokens tokens,
                                 messageCount := row.messageCount + 1 })
          ⟨u, tokens, 1⟩ s.unknownRows }
    | some costUsd =>
      let srcProviderID := msg.providerID.getD "unknown"
      let srcModelID := msg.modelID.getD "unknown"
      let srcModelKey := srcProviderID ++ "\n" ++ srcModelID
      let modelKey := key.provider ++ "/" ++ key.model
      let title := sessionsIdx msg.sessionID
      { byModel := upsert modelKey
          (fun row => { row with tokens := addBuckets row.tokens tokens,
                                 costUsd := row.costUsd + costUsd,
                                 messageCount := row.messageCount + 1 })
          ⟨key, tokens, costUsd, 1⟩ s.byModel
        bySession := upsert msg.sessionID
          (fun row => { row with tokens := addBuckets row.tokens tokens,
                                 costUsd := row.costUsd + costUsd,
                                 messageCount := row.messageCount + 1 })
          ⟨msg.sessionID, title, tokens, costUsd, 1⟩ s.bySession
        bySourceProvider := upsert srcProviderID
          (fun row => { row with tokens := addBuckets row.tokens tokens,
                                 costUsd := row.costUsd + costUsd,
                                 messageCount := row.messageCount + 1 })
          ⟨srcProviderID, tokens, costUsd, 1⟩ s.bySourceProvider
        bySourceModel := upsert srcModelKey
          (fun row => { row with tokens := addBuckets row.tokens tokens,
                                 costUsd := row.costUsd + costUsd,
                                 messageCount := row.messageCount + 1 })
          ⟨srcProviderID, srcModelID, tokens, costUsd, 1⟩ s.bySourceModel
        unknownRows := s.unknownRows
        pricedTotals := addBuckets s.pricedTotals tokens
        unknownTotals := s.unknownTotals
        costTotal := s.costTotal + costUsd }

/-- The whole aggregation loop over the retrieved message list (the final
sorting of `aggregateUsage` only permutes the breakdown lists and is not
modelled). -/
def aggregateUsageCore (lookupCost : Catalog) (sessionsIdx : String → Option String)
    (msgs : List Msg) : AggState :=
  msgs.foldl (aggregateStep lookupCost sessionsIdx) initAggState

/-- Componentwise sum of the token buckets of a message list. -/
def bucketsSum (msgs : List Msg) : TokenBuckets :=
  msgs.foldl (fun acc m => addBuckets acc (messageBuckets m)) emptyBuckets

/-! ## Google access-token cache (google-token-cache, copilot.ts lines 502-629) -/

/-- `GoogleAccessTokenCacheEntry`. -/
structure CacheEntry where
  accessToken : String
  expiresAt : ℤ
  projectId : String
  email : Option String
deriving DecidableEq

/-- The in-memory `tokens` record, as an insertion-ordered association list. -/
abbrev TokenCache := List (String × CacheEntry)

/-- Plain-object key lookup. -/
def alookup {α : Type} (k : String) : List (String × α) → Option α
  | [] => none
  | (k0, a) :: rest => if k0 = k then some a else alookup k rest

/-- copilot.ts `getCachedAccessToken` with `Date.now()` passed explicitly;
returns the entry only when present and `expiresAt > now + skewMs`. -/
def getCachedAccessToken (cache : TokenCache) (key : String)
    (skewMs now : ℤ) : Option CacheEntry :=
  match alookup key cache with
  | none => none
  | some entry => if entry.expiresAt ≤ now + skewMs then none else entry

/-- copilot.ts `setCachedAccessToken`: upsert of the entry under the key. -/
def setCachedAccessToken (cache : TokenCache) (key : String)
    (entry : CacheEntry) : TokenCache :=
  upsert key (fun _ => entry) entry cache

/-- copilot.ts `makeAccountCacheKey`, with the sha256 hex digest as an
explicit function parameter (`sha256hex s` stands for
`createHash("sha256").update(s).digest("hex")`). -/
def makeAccountCacheKey (sha256hex : String → String)
    (refreshToken projectId : String) (email : Option String) : String :=
  let emailPart := String.mk (lowerList (trimList (email.getD "").data))
  let hash := String.mk ((sha256hex (refreshToken ++ "\n" ++ projectId)).data.take 16)
  emailPart ++ "::" ++ projectId ++ "::" ++ hash

/-- An account credential together with its short-lived access token, as the
orchestrator holds it; the key derivation is handed only the three identity
fields, never the access token. -/
structure AccountCredential where
  refreshToken : String
  accessToken : String
  projectId : String
  email : Option String

/-- The cache key the orchestrator derives for a credential (the call sites
in google.ts pass `refreshToken`, `projectId` and `email` only). -/
def accountCacheKeyOfCredential (sha256hex : String → String)
    (c : AccountCredential) : String :=
  makeAccountCacheKey sha256hex c.refreshToken c.projectId c.email

/-! ## Multi-account orchestrator (google.ts lines 108-127, 346-462) -/

/-- types.ts `GoogleModelQuota` (the model id is kept as a string). -/
structure GoogleModelQuota where
  modelId : String
  displayName : String
  percentRemaining : ℤ
  resetTimeIso : Option String
  accountEmail : Option String
deriving DecidableEq

/-- types.ts `GoogleAccountError`. -/
structure GoogleAccountError where
  email : String
  error : String
deriving DecidableEq

/-- The per-account result shape of `fetchAccountQuotaWithAntigravityRefresh`. -/
structure AccountFetchResult where
  success : Bool
  models : Option (List GoogleModelQuota)
  error : Option String
  accountEmail : Option String
deriving DecidableEq

/-- The combined value `queryGoogleQuota` returns once accounts were found:
`QuotaError` or `GoogleQuotaResult`. -/
inductive GoogleCombined where
  | fail (error : String)
  | ok (models : List GoogleModelQuota) (errors : Option (List GoogleAccountError))
deriving DecidableEq

/-- types.ts `AntigravityAccount` (fields the orchestrator reads). -/
structure AntigravityAccount where
  email : Option String
  refreshToken : String
  projectId : Option String
  projectID : Option String
  managedProjectId : Option String
deriving DecidableEq

/-- JS `a || b` on optional strings (the empty string is falsy). -/
def jsOrStr (a b : Option String) : Option String :=
  match a with
  | some s => if s = "" then b else some s
  | none => b

/-- JS `a || d` with a string default. -/
def jsOrDefault (a : Option String) (d : String) : String :=
  match a with
  | some s => if s = "" then d else s
  | none => d

/-- google.ts `getProjectId`: `account.projectId || account.projectID ||
account.managedProjectId`, collapsed to `none` when the chain is falsy. -/
def effectiveProjectId (a : AntigravityAccount) : Option String :=
  match jsOrStr a.projectId (jsOrStr a.projectID a.managedProjectId) with
  | some s => if s = "" then none else some s
  | none => none

/-- An error thrown by `fetchGoogleQuota`: 401/403 become
"Google API auth error: {status}", other statuses "Google API error:
{status}", and `fetchWithTimeout` can throw a timeout error. -/
inductive FetchErr where
  | auth (status : ℕ)
  | api (status : ℕ)
  | timeout
deriving DecidableEq

/-- `err.message.includes("auth error")`. -/
def FetchErr.isAuthMsg : FetchErr → Bool
  | .auth _ => true
  | _ => false

/-- `err.message.includes("timeout")` (the timeout message is modelled from
the spec: http.ts is not among the staged sources). -/
def FetchErr.isTimeoutMsg : FetchErr → Bool
  | .timeout => true
  | _ => false

/-- The thrown error's message. -/
def FetchErr.msg : FetchErr → String
  | .auth status => "Google API auth error: " ++ toString status
  | .api status => "Google API error: " ++ toString status
  | .timeout => "fetch timeout"

/-- A successful token-refresh response. -/
structure RefreshOk where
  accessToken : String
  expiresIn : ℤ
deriving DecidableEq

/-- google.ts `fetchAccountQuotaWithAntigravityRefresh` (lines 346-409) with
its network effects as explicit outcome parameters:
`tokenRes` is the outcome of the initial `refreshAccessTokenWithCache`,
`fetch1` of the first `fetchGoogleQuota` (its payload already the extracted
model-quota list), `refresh2` of the forced cache-bypassing
`refreshAccessToken` in the auth-retry branch, and `fetch2` of the retried
`fetchGoogleQuota`.  Returns the account result together with how many
forced refreshes and how many quota requests the control flow performed. -/
def fetchAccountQuotaWithAntigravityRefresh
    (account : AntigravityAccount)
    (tokenRes : Except String String)
    (fetch1 : Except FetchErr (List GoogleModelQuota))
    (refresh2 : Except String RefreshOk)
    (fetch2 : Except FetchErr (List GoogleModelQuota)) :
    AccountFetchResult × ℕ × ℕ :=
  let email := jsOrDefault account.email "Unknown"
  match effectiveProjectId account with
  | none => (⟨false, none, some "No projectId", some email⟩, 0, 0)
  | some _ =>
    match tokenRes with
    | .error e => (⟨false, none, some e, some email⟩, 0, 0)
    | .ok _ =>
      match fetch1 with
      | .ok ms => (⟨true, some ms, none, some email⟩, 0, 1)
      | .error err =>
        if err.isAuthMsg then
          -- One auth retry: refresh token then retry quota call.
          match refresh2 with
          | .error e2 => (⟨false, none, some e2, some email⟩, 1, 1)
          | .ok _ =>
            match fetch2 with
            | .ok ms => (⟨true, some ms, none, some email⟩, 1, 2)
            | .error err2 =>
              (⟨false, none,
                some (if err2.isTimeoutMsg then "API timeout" else err2.msg),
                some email⟩, 1, 2)
        else
          (⟨false, none,
            some (if err.isTimeoutMsg then "API timeout" else err.msg),
            some email⟩, 0, 1)

/-- The models a single account result contributes to `allModels`
(`result.success && result.models && result.models.length > 0`). -/
def modelContribution (r : AccountFetchResult) : List GoogleModelQuota :=
  match r.models with
  | some ms => if r.success = true ∧ ms ≠ [] then ms else []
  | none => []

/-- The error entry a single account result contributes to `errors`
(`!result.success && result.error && result.accountEmail`). -/
def errContribution (r : AccountFetchResult) : List GoogleAccountError :=
  match r.error, r.accountEmail with
  | some e, some a =>
    if r.success = false ∧ e ≠ "" ∧ a ≠ "" then [⟨a, e⟩] else []
  | _, _ => []

/-- The result-combining tail of `queryGoogleQuota` (google.ts lines
437-462): collect models and per-account errors, report "No quota data
available" only when both are empty. -/
def combineGoogleResults (results : List AccountFetchResult) : GoogleCombined :=
  let allModels := (results.map modelContribution).flatten
  let errors := (results.map errContribution).flatten
  if allModels = [] ∧ errors = [] then
    .fail "No quota data available"
  else
    .ok allModels (if errors = [] then none else some errors)

/-! ## The worker pool of mapWithConcurrency (google.ts lines 108-127) -/

/-- `Math.trunc` (toward zero) on a JS number modelled as a rational. -/
def jsTrunc (q : ℚ) : ℤ := if q < 0 then ⌈q⌉ else ⌊q⌋

/-- The number of workers `mapWithConcurrency` spawns:
`Math.min(Math.max(1, Math.trunc(concurrency)), items.length)`. -/
def workerCount (concurrency : ℚ) (itemCount : ℕ) : ℕ :=
  min (max 1 (jsTrunc concurrency)).toNat itemCount

/-- google.ts `GOOGLE_ACCOUNTS_CONCURRENCY`. -/
def GOOGLE_ACCOUNTS_CONCURRENCY : ℚ := 3

/-- What one worker of the pool is doing between suspension points. -/
inductive WStatus where
  | idle
  | running (idx : ℕ)
  | done
deriving DecidableEq

/-- The shared state of the pool: the shared `nextIndex` counter, the status
of every worker, and the ghost list of item indices claimed so far (in claim
order). -/
structure PoolState where
  next : ℕ
  workers : List WStatus
  started : List ℕ
deriving DecidableEq

/-- The pool right after `Array.from` created the workers. -/
def initPool (w : ℕ) : PoolState := ⟨0, List.replicate w .idle, []⟩

/-- One scheduler step of the pool over `M` items.  `claim_run` is an idle
worker executing `const idx = nextIndex++` with `idx < M` and starting
`fn(items[idx], idx)`; `claim_exit` is the same read with `idx >= M`, upon
which the worker returns; `finish` is a running worker's awaited
`fn` resolving, after which it loops back to claim again. -/
inductive PoolStep (M : ℕ) : PoolState → PoolState → Prop where
  | claim_run (s : PoolState) (i : ℕ)
      (h : s.workers.get? i = some .idle) (hlt : s.next < M) :
      PoolStep M s ⟨s.next + 1, s.workers.set i (.running s.next),
        s.started ++ [s.next]⟩
  | claim_exit (s : PoolState) (i : ℕ)
      (h : s.workers.get? i = some .idle) (hge : M ≤ s.next) :
      PoolStep M s ⟨s.next + 1, s.workers.set i .done, s.started⟩
  | finish (s : PoolState) (i k : ℕ)
      (h : s.workers.get? i = some (.running k)) :
      PoolStep M s ⟨s.next, s.workers.set i .idle, s.started⟩

/-- States the pool can reach from its initial state. -/
def PoolReach (M w : ℕ) (s : PoolState) : Prop :=
  Relation.ReflTransGen (PoolStep M) (initPool w) s

/-- How many per-item operations are in flight in a pool state. -/
def inFlight (s : PoolState) : ℕ :=
  (s.workers.filter fun w =>
    match w with
    | .running _ => true
    | _ => false).length

/-! ## Statement-side definitions -/

/-- The pricing key a mapping result carries, if any. -/
def pricingKeyOf : MapResult → Option PricedKey
  | .ok k => some k
  | .unknown _ => none

/-- The cost a mapping result prices a bucket at (none when unmapped or the
catalog has no entry). -/
def mappedCostUsd (cat : Catalog) (r : MapResult) (t : TokenBuckets) : Option ℚ :=
  match r with
  | .ok k => calculateCostUsd cat k.provider k.model t
  | .unknown _ => none

/-- The cost formula as the specification states it: the sum over the five
fields of `bucket[field] * rate[field] / 1,000,000`, with the cache rates
defaulting to the input rate and the reasoning rate to the output rate when
the catalog omits them. -/
def specCostUsd (cost : ModelCost) (t : TokenBuckets) : ℚ :=
  (t.input : ℚ) * cost.input.getD 0 / 1000000 +
  (t.output : ℚ) * cost.output.getD 0 / 1000000 +
  (t.cache_read : ℚ) * (jsCoalesce cost.cache_read cost.input).getD 0 / 1000000 +
  (t.cache_write : ℚ) * (jsCoalesce cost.cache_write cost.input).getD 0 / 1000000 +
  (t.reasoning : ℚ) * (jsCoalesce cost.reasoning cost.output).getD 0 / 1000000

/-- A catalog that prices both the bare kimi-k2 and its -thinking variant. -/
def kimiCatalog : Catalog := fun p m =>
  if p = "moonshotai" ∧ (m = "kimi-k2" ∨ m = "kimi-k2-thinking") then
    some ⟨some 1, some 2, none, none, none⟩
  else none

/-- A catalog that prices only the all-lowercase claude-opus-4-5. -/
def lowerOnlyCatalog : Catalog := fun p m =>
  if p = "anthropic" ∧ m = "claude-opus-4-5" then
    some ⟨some 3, some 15, none, none, none⟩
  else none

/-! ## Helper lemmas -/

theorem isPrefixList_cons_ne (p c : Char) (ps cs : List Char) (h : p ≠ c) :
    isPrefixList (p :: ps) (c :: cs) = false := by
  simp [isPrefixList, h]

theorem resolveOfficialKey_other (cat : Catalog) (p n : String)
    (h1 : p ≠ "moonshotai") (h2 : p ≠ "google") :
    resolveOfficialKey cat p n = ⟨p, n⟩ := by
  unfold resolveOfficialKey
  rw [if_neg (fun h => h1 h.1), if_neg (fun h => h2 h.1), if_neg (fun h => h2 h.1)]

theorem resolveOfficialKey_moonshotai (cat : Catalog) (n : String) :
    resolveOfficialKey cat "moonshotai" n =
      if n = "kimi-k2" ∧ (cat "moonshotai" "kimi-k2-thinking").isSome then
        ⟨"moonshotai", "kimi-k2-thinking"⟩
      else ⟨"moonshotai", n⟩ := by
  unfold resolveOfficialKey
  by_cases h : n = "kimi-k2" ∧ (cat "moonshotai" "kimi-k2-thinking").isSome
  · rw [if_pos ⟨rfl, h.1, h.2⟩, if_pos h]
  · rw [if_neg (fun hh => h ⟨hh.2.1, hh.2.2⟩),
      if_neg (fun hh => absurd hh.1 (by decide)),
      if_neg (fun hh => absurd hh.1 (by decide)), if_neg h]

theorem resolveOfficialKey_google (cat : Catalog) (n : String) :
    resolveOfficialKey cat "google" n =
      if n = "gemini-3-pro" ∧ (cat "google" "gemini-3-pro").isNone ∧
          (cat "google" "gemini-3-pro-preview").isSome then
        ⟨"google", "gemini-3-pro-preview"⟩
      else if n = "gemini-3-flash" ∧ (cat "google" "gemini-3-flash").isNone ∧
          (cat "google" "gemini-3-flash-preview").isSome then
        ⟨"google", "gemini-3-flash-preview"⟩
      else ⟨"google", n⟩ := by
  unfold resolveOfficialKey
  rw [if_neg (fun hh => absurd hh.1 (by decide))]
  by_cases h1 : n = "gemini-3-pro" ∧ (cat "google" "gemini-3-pro").isNone ∧
      (cat "google" "gemini-3-pro-preview").isSome
  · rw [if_pos ⟨rfl, h1⟩, if_pos h1]
  · rw [if_neg (fun hh => h1 hh.2), if_neg h1]
    by_cases h2 : n = "gemini-3-flash" ∧ (cat "google" "gemini-3-flash").isNone ∧
        (cat "google" "gemini-3-flash-preview").isSome
    · rw [if_pos ⟨rfl, h2⟩, if_pos h2]
    · rw [if_neg (fun hh => h2 hh.2), if_neg h2]

theorem mapToOfficialPricingKey_some (cat : Catalog) (pid : Option String)
    (m : String) (h : m ≠ "") :
    mapToOfficialPricingKey cat pid (some m) =
      match inferOfficialProviderFromModelId (normalizeModelId m) with
      | none => .unknown ⟨pid.getD "unknown", m, none, some (normalizeModelId m)⟩
      | some p => .ok (resolveOfficialKey cat p (normalizeModelId m)) := by
  simp [mapToOfficialPricingKey, h]

theorem jsCoalesce_getD_nonneg (a b : Option ℚ) (ha : 0 ≤ a.getD 0)
    (hb : 0 ≤ b.getD 0) : 0 ≤ (jsCoalesce a b).getD 0 := by
  cases a <;> simp_all [jsCoalesce]

theorem jsCoalesce_getD_zero (a b : Option ℚ) (ha : a.getD 0 = 0)
    (hb : b.getD 0 = 0) : (jsCoalesce a b).getD 0 = 0 := by
  cases a <;> simp_all [jsCoalesce]

theorem alookup_upsert_self {α : Type} (k : String) (upd : α → α) (ini : α) :
    ∀ l : List (String × α), alookup k (upsert k upd ini l) =
      some (match alookup k l with | some a => upd a | none => ini) := by
  intro l
  induction l with
  | nil => simp [upsert, alookup]
  | cons p rest ih =>
    obtain ⟨k0, a⟩ := p
    by_cases h : k0 = k
    · subst h; simp [upsert, alookup]
    · simp [upsert, alookup, h, ih]

/-! ## Claim C4: the cost calculator computes the spec formula -/

/-- C4: whenever the catalog has an entry for the pricing key,
`calculateCostUsd` succeeds and returns exactly the specification's sum
`Σ bucket[f] * rate[f] / 1,000,000` with the cache rates defaulting to the
input rate and the reasoning rate to the output rate; the result is
non-negative whenever the rates are, and is zero for an all-zero bucket or
all-zero rates; it never fails when the entry exists. -/
theorem claim_C4_cost_formula (cat : Catalog) (p m : String) (cost : ModelCost)
    (t : TokenBuckets) (h : cat p m = some cost) :
    calculateCostUsd cat p m t = some (specCostUsd cost t)
    ∧ (0 ≤ cost.input.getD 0 → 0 ≤ cost.output.getD 0 →
        0 ≤ cost.cache_read.getD 0 → 0 ≤ cost.cache_write.getD 0 →
        0 ≤ cost.reasoning.getD 0 → 0 ≤ specCostUsd cost t)
    ∧ specCostUsd cost emptyBuckets = 0
    ∧ (cost.input.getD 0 = 0 → cost.output.getD 0 = 0 →
        cost.cache_read.getD 0 = 0 → cost.cache_write.getD 0 = 0 →
        cost.reasoning.getD 0 = 0 → specCostUsd cost t = 0) := by
  refine ⟨?_, ?_, ?_, ?_⟩
  · simp only [calculateCostUsd, h]
    congr 1
    unfold specCostUsd
    ring
  · intro h1 h2 h3 h4 h5
    unfold specCostUsd
    have c1 := jsCoalesce_getD_nonneg cost.cache_read cost.input h3 h1
    have c2 := jsCoalesce_getD_nonneg cost.cache_write cost.input h4 h1
    have c3 := jsCoalesce_getD_nonneg cost.reasoning cost.output h5 h2
    have n1 : (0 : ℚ) ≤ (t.input : ℚ) := Nat.cast_nonneg _
    have n2 : (0 : ℚ) ≤ (t.output : ℚ) := Nat.cast_nonneg _
    have n3 : (0 : ℚ) ≤ (t.cache_read : ℚ) := Nat.cast_nonneg _
    have n4 : (0 : ℚ) ≤ (t.cache_write : ℚ) := Nat.cast_nonneg _
    have n5 : (0 : ℚ) ≤ (t.reasoning : ℚ) := Nat.cast_nonneg _
    have m6 : (0 : ℚ) ≤ 1000000 := by norm_num
    refine add_nonneg (add_nonneg (add_nonneg (add_nonneg ?_ ?_) ?_) ?_) ?_ <;>
      exact div_nonneg (mul_nonneg (by assumption) (by assumption)) m6
  · simp [specCostUsd, emptyBuckets]
  · intro h1 h2 h3 h4 h5
    unfold specCostUsd
    rw [jsCoalesce_getD_zero _ _ h3 h1, jsCoalesce_getD_zero _ _ h4 h1,
      jsCoalesce_getD_zero _ _ h5 h2, h1, h2]
    ring

/-- Witness for C4 at a concrete catalog entry and bucket. -/
theorem claim_C4_cost_formula_witness :
    calculateCostUsd kimiCatalog "moonshotai" "kimi-k2-thinking" ⟨1, 2, 3, 4, 5⟩ =
      some (specCostUsd ⟨some 1, some 2, none, none, none⟩ ⟨1, 2, 3, 4, 5⟩)
    ∧ (0 ≤ (1 : ℚ) → 0 ≤ (2 : ℚ) → 0 ≤ (0 : ℚ) → 0 ≤ (0 : ℚ) → 0 ≤ (0 : ℚ) →
        0 ≤ specCostUsd ⟨some 1, some 2, none, none, none⟩ ⟨1, 2, 3, 4, 5⟩)
    ∧ specCostUsd ⟨some 1, some 2, none, none, none⟩ emptyBuckets = 0
    ∧ ((1 : ℚ) = 0 → (2 : ℚ) = 0 → (0 : ℚ) = 0 → (0 : ℚ) = 0 → (0 : ℚ) = 0 →
        specCostUsd ⟨some 1, some 2, none, none, none⟩ ⟨1, 2, 3, 4, 5⟩ = 0) :=
  claim_C4_cost_formula kimiCatalog "moonshotai" "kimi-k2-thinking"
    ⟨some 1, some 2, none, none, none⟩ ⟨1, 2, 3, 4, 5⟩ (by decide)

/-! ## Claim C6: the access-token cache's get/set semantics -/

/-- C6: `getCachedAccessToken` returns the stored entry exactly when one is
present under the key and its `expiresAt` is strictly greater than
`now + skewMs`, and returns a miss (`none`, never an error) otherwise;
`setCachedAccessToken` followed by a get with zero skew returns the just-set
entry whenever it is unexpired; and a skew at least the remaining validity
makes the get miss even though the entry is not yet expired. -/
theorem claim_C6_cache_get_set (cache : TokenCache) (key : String)
    (skewMs now : ℤ) (entry e : CacheEntry) :
    (getCachedAccessToken cache key skewMs now = some e ↔
      alookup key cache = some e ∧ now + skewMs < e.expiresAt)
    ∧ (now < entry.expiresAt →
        getCachedAccessToken (setCachedAccessToken cache key entry) key 0 now =
          some entry)
    ∧ (alookup key cache = some e → e.expiresAt ≤ now + skewMs →
        getCachedAccessToken cache key skewMs now = none) := by
  refine ⟨?_, ?_, ?_⟩
  · cases hl : alookup key cache with
    | none => simp [getCachedAccessToken, hl]
    | some a =>
      simp only [getCachedAccessToken, hl]
      by_cases hexp : a.expiresAt ≤ now + skewMs
      · rw [if_pos hexp]
        constructor
        · intro hh; exact absurd hh (by simp)
        · rintro ⟨he, hlt⟩
          have : a = e := Option.some.inj he
          subst this
          omega
      · rw [if_neg hexp]
        constructor
        · intro hh
          have : a = e := Option.some.inj hh
          subst this
          exact ⟨rfl, by omega⟩
        · rintro ⟨he, _⟩
          exact he.symm ▸ rfl
  · intro hlt
    unfold getCachedAccessToken setCachedAccessToken
    rw [alookup_upsert_self]
    cases halo : alookup key cache with
    | none =>
      simp only [halo]
      rw [if_neg (by omega)]
    | some a =>
      simp only [halo]
      rw [if_neg (by omega)]
  · intro hl hle
    simp [getCachedAccessToken, hl, if_pos hle]

/-- Witness for C6 at a concrete cache, entry and skew. -/
theorem claim_C6_cache_get_set_witness :
    (getCachedAccessToken [("k", ⟨"tok", 100, "proj", none⟩)] "k" 30 50 =
        some ⟨"tok", 100, "proj", none⟩ ↔
      alookup "k" [("k", ⟨"tok", 100, "proj", none⟩)] =
          some (⟨"tok", 100, "proj", none⟩ : CacheEntry) ∧
        (50 : ℤ) + 30 < 100)
    ∧ ((50 : ℤ) < 100 →
        getCachedAccessToken
          (setCachedAccessToken [("k", ⟨"tok", 100, "proj", none⟩)] "k2"
            ⟨"tok2", 100, "proj", none⟩) "k2" 0 50 =
          some ⟨"tok2", 100, "proj", none⟩)
    ∧ (alookup "k" [("k", ⟨"tok", 100, "proj", none⟩)] =
          some (⟨"tok", 100, "proj", none⟩ : CacheEntry) →
        (100 : ℤ) ≤ 50 + 30 →
        getCachedAccessToken [("k", ⟨"tok", 100, "proj", none⟩)] "k" 30 50 = none) :=
  claim_C6_cache_get_set [("k", ⟨"tok", 100, "proj", none⟩)] "k" 30 50
    ⟨"tok2", 100, "proj", none⟩ ⟨"tok", 100, "proj", none⟩

/-! ## Claim C9: the shape of the account cache key -/

/-- C9: the cache key is exactly the trimmed lowercased email, the project
id, and the first 16 hex characters of `sha256(refreshToken + "\n" +
projectId)`, joined by `"::"`; the refresh token influences the key only
through the one-way digest (equal digests give equal keys), and the access
token held alongside the credential does not influence the key at all. -/
theorem claim_C9_cache_key_shape (sha256hex : String → String)
    (rt pid : String) (email : Option String) :
    makeAccountCacheKey sha256hex rt pid email =
      String.mk (lowerList (trimList (email.getD "").data)) ++ "::" ++ pid ++
        "::" ++ String.mk ((sha256hex (rt ++ "\n" ++ pid)).data.take 16)
    ∧ (∀ rt2, sha256hex (rt ++ "\n" ++ pid) = sha256hex (rt2 ++ "\n" ++ pid) →
        makeAccountCacheKey sha256hex rt pid email =
          makeAccountCacheKey sha256hex rt2 pid email)
    ∧ (∀ at1 at2 : String,
        accountCacheKeyOfCredential sha256hex ⟨rt, at1, pid, email⟩ =
          accountCacheKeyOfCredential sha256hex ⟨rt, at2, pid, email⟩) := by
  refine ⟨rfl, ?_, fun _ _ => rfl⟩
  intro rt2 hsha
  unfold makeAccountCacheKey
  rw [hsha]

/-- Witness for C9 with an identity digest stand-in and concrete fields. -/
theorem claim_C9_cache_key_shape_witness :
    makeAccountCacheKey (fun s => s ++ s) "rt" "proj" (some " A@B.com ") =
      String.mk (lowerList (trimList (" A@B.com " : String).data)) ++ "::" ++
        "proj" ++ "::" ++
        String.mk ((((fun s => s ++ s) ("rt" ++ "\n" ++ "proj") : String)).data.take 16)
    ∧ (∀ rt2, ((fun s => s ++ s) ("rt" ++ "\n" ++ "proj") : String) =
          (fun s => s ++ s) (rt2 ++ "\n" ++ "proj") →
        makeAccountCacheKey (fun s => s ++ s) "rt" "proj" (some " A@B.com ") =
          makeAccountCacheKey (fun s => s ++ s) rt2 "proj" (some " A@B.com "))
    ∧ (∀ at1 at2 : String,
        accountCacheKeyOfCredential (fun s => s ++ s)
            ⟨"rt", at1, "proj", some " A@B.com "⟩ =
          accountCacheKeyOfCredential (fun s => s ++ s)
            ⟨"rt", at2, "proj", some " A@B.com "⟩) :=
  claim_C9_cache_key_shape (fun s => s ++ s) "rt" "proj" (some " A@B.com ")

/-! ## Claim C10: the single-letter "o" heuristic -/

/-- C10: any model id whose lowercase form starts with "o" is assigned the
official provider "openai" by the inference heuristic, and in particular
the non-OpenAI-looking id "olympus-1" maps to the pricing key
(openai, olympus-1) under every catalog rather than to an unknown result. -/
theorem claim_C10_o_heuristic (m : String)
    (h : strStartsL (lowerList m.data) "o" = true) :
    inferOfficialProviderFromModelId m = some "openai"
    ∧ ∀ (cat : Catalog) (pid : Option String),
        mapToOfficialPricingKey cat pid (some "olympus-1") =
          .ok ⟨"openai", "olympus-1"⟩ := by
  constructor
  · obtain ⟨t, ht⟩ : ∃ t, lowerList m.data = 'o' :: t := by
      cases hm : lowerList m.data with
      | nil => rw [strStartsL, hm] at h; exact absurd h (by decide)
      | cons c t =>
        rw [strStartsL, hm] at h
        have hc : ('o' : Char) = c := by
          by_contra hc
          rw [isPrefixList_cons_ne _ _ _ _ hc] at h
          exact absurd h (by decide)
        exact ⟨t, by rw [← hc]⟩
    have h1 : strStartsL (lowerList m.data) "claude" = false := by
      rw [strStartsL, ht]
      exact isPrefixList_cons_ne _ _ _ _ (by decide)
    have h2 : strStartsL (lowerList m.data) "gpt" = false := by
      rw [strStartsL, ht]
      exact isPrefixList_cons_ne _ _ _ _ (by decide)
    simp [inferOfficialProviderFromModelId, h1, h2, h]
  · intro cat pid
    have hne : ("olympus-1" : String) ≠ "" := by decide
    have hn : normalizeModelId "olympus-1" = "olympus-1" := by decide
    have hi : inferOfficialProviderFromModelId "olympus-1" = some "openai" := by
      decide
    rw [mapToOfficialPricingKey_some cat pid _ hne, hn, hi]
    show MapResult.ok (resolveOfficialKey cat "openai" "olympus-1") = _
    rw [resolveOfficialKey_other cat "openai" "olympus-1" (by decide) (by decide)]

/-- Witness for C10 at the id "olympus-1". -/
theorem claim_C10_o_heuristic_witness :
    inferOfficialProviderFromModelId "olympus-1" = some "openai"
    ∧ ∀ (cat : Catalog) (pid : Option String),
        mapToOfficialPricingKey cat pid (some "olympus-1") =
          .ok ⟨"openai", "olympus-1"⟩ :=
  claim_C10_o_heuristic "olympus-1" (by decide)

/-! ## Claim C2: when the catalog-compatibility fallbacks are consulted -/

/-- C2 counterexample: under a catalog that prices both moonshotai/kimi-k2
and moonshotai/kimi-k2-thinking, the source id "kimi-k2" (whose primary
normalized name "kimi-k2" HAS a catalog entry) is nevertheless mapped to the
alternate spelling "kimi-k2-thinking" — the moonshotai fallback is applied
without first checking the primary name, contradicting the claim that the
primary name is returned whenever it has a catalog entry. -/
theorem claim_C2_counterexample :
    (kimiCatalog "moonshotai" "kimi-k2").isSome = true
    ∧ normalizeModelId "kimi-k2" = "kimi-k2"
    ∧ inferOfficialProviderFromModelId "kimi-k2" = some "moonshotai"
    ∧ mapToOfficialPricingKey kimiCatalog (some "opencode") (some "kimi-k2") =
        .ok ⟨"moonshotai", "kimi-k2-thinking"⟩
    ∧ MapResult.ok ⟨"moonshotai", "kimi-k2-thinking"⟩ ≠
        .ok ⟨"moonshotai", "kimi-k2"⟩ := by
  decide

/-- C2 amended: the google-family "-preview" fallback is consulted only when
the primary normalized name (gemini-3-pro or gemini-3-flash) has no catalog
entry, and a google-family primary name with a catalog entry is returned
as-is; the moonshotai rewrite kimi-k2 → kimi-k2-thinking, however, is
applied whenever the alternate spelling has a catalog entry, without
consulting the primary name; for every other inferred provider the primary
normalized name is always the pricing key. -/
theorem claim_C2_amended (cat : Catalog) (pid : Option String) (m n p : String)
    (hm : m ≠ "") (hn : normalizeModelId m = n)
    (hp : inferOfficialProviderFromModelId n = some p) :
    mapToOfficialPricingKey cat pid (some m) = .ok (resolveOfficialKey cat p n)
    ∧ (p = "google" →
        resolveOfficialKey cat p n =
          if n = "gemini-3-pro" ∧ (cat "google" "gemini-3-pro").isNone ∧
              (cat "google" "gemini-3-pro-preview").isSome then
            ⟨"google", "gemini-3-pro-preview"⟩
          else if n = "gemini-3-flash" ∧ (cat "google" "gemini-3-flash").isNone ∧
              (cat "google" "gemini-3-flash-preview").isSome then
            ⟨"google", "gemini-3-flash-preview"⟩
          else ⟨"google", n⟩)
    ∧ (p = "google" → (cat p n).isSome → resolveOfficialKey cat p n = ⟨p, n⟩)
    ∧ (p = "moonshotai" →
        resolveOfficialKey cat p n =
          if n = "kimi-k2" ∧ (cat "moonshotai" "kimi-k2-thinking").isSome then
            ⟨"moonshotai", "kimi-k2-thinking"⟩
          else ⟨"moonshotai", n⟩)
    ∧ (p ≠ "google" → p ≠ "moonshotai" → resolveOfficialKey cat p n = ⟨p, n⟩) := by
  subst hn
  refine ⟨?_, ?_, ?_, ?_, ?_⟩
  · rw [mapToOfficialPricingKey_some cat pid m hm, hp]
  · intro hg; subst hg; exact resolveOfficialKey_google cat _
  · intro hg hs; subst hg
    rw [resolveOfficialKey_google cat _]
    rw [if_neg, if_neg]
    · rintro ⟨he, hnone, _⟩
      rw [he] at hs
      simp [Option.isNone_iff_eq_none.mp hnone] at hs
    · rintro ⟨he, hnone, _⟩
      rw [he] at hs
      simp [Option.isNone_iff_eq_none.mp hnone] at hs
  · intro hg; subst hg; exact resolveOfficialKey_moonshotai cat _
  · intro h1 h2; exact resolveOfficialKey_other cat p _ h2 h1

/-- Witness for C2's amended statement at the google family with the primary
name priced. -/
theorem claim_C2_amended_witness :
    mapToOfficialPricingKey
        (fun p m => if p = "google" ∧ m = "gemini-3-pro" then
          some ⟨some 2, some 12, none, none, none⟩ else none)
        (some "opencode") (some "gemini-3-pro") =
      .ok (resolveOfficialKey
        (fun p m => if p = "google" ∧ m = "gemini-3-pro" then
          some ⟨some 2, some 12, none, none, none⟩ else none)
        "google" "gemini-3-pro") :=
  (claim_C2_amended
    (fun p m => if p = "google" ∧ m = "gemini-3-pro" then
      some ⟨some 2, some 12, none, none, none⟩ else none)
    (some "opencode") "gemini-3-pro" "gemini-3-pro" "google"
    (by decide) (by decide) (by decide)).1

/-! ## Claim C3: mapping is a function of the normalized model id -/

/-- C3 counterexample: "CLAUDE-OPUS-4-5" and "claude-opus-4-5" differ only
in ASCII letter casing (their lowercase forms agree), yet they normalize to
distinct canonical ids and `mapToOfficialPricingKey` returns different
pricing keys for them, with different cost results under a catalog that
prices only the lowercase spelling. -/
theorem claim_C3_counterexample :
    ("CLAUDE-OPUS-4-5" : String) ≠ "claude-opus-4-5"
    ∧ lowerList ("CLAUDE-OPUS-4-5" : String).data =
        lowerList ("claude-opus-4-5" : String).data
    ∧ pricingKeyOf (mapToOfficialPricingKey lowerOnlyCatalog (some "opencode")
        (some "CLAUDE-OPUS-4-5")) = some ⟨"anthropic", "CLAUDE-OPUS-4-5"⟩
    ∧ pricingKeyOf (mapToOfficialPricingKey lowerOnlyCatalog (some "opencode")
        (some "claude-opus-4-5")) = some ⟨"anthropic", "claude-opus-4-5"⟩
    ∧ (some (⟨"anthropic", "CLAUDE-OPUS-4-5"⟩ : PricedKey) ≠
        some ⟨"anthropic", "claude-opus-4-5"⟩)
    ∧ mappedCostUsd lowerOnlyCatalog
        (mapToOfficialPricingKey lowerOnlyCatalog (some "opencode")
          (some "CLAUDE-OPUS-4-5")) ⟨1, 0, 0, 0, 0⟩ = none
    ∧ mappedCostUsd lowerOnlyCatalog
        (mapToOfficialPricingKey lowerOnlyCatalog (some "opencode")
          (some "claude-opus-4-5")) ⟨1, 0, 0, 0, 0⟩ = some (3 / 1000000) := by
  have hmap1 : mapToOfficialPricingKey lowerOnlyCatalog (some "opencode")
      (some "CLAUDE-OPUS-4-5") = .ok ⟨"anthropic", "CLAUDE-OPUS-4-5"⟩ := by decide
  have hmap2 : mapToOfficialPricingKey lowerOnlyCatalog (some "opencode")
      (some "claude-opus-4-5") = .ok ⟨"anthropic", "claude-opus-4-5"⟩ := by decide
  have hcat1 : lowerOnlyCatalog "anthropic" "CLAUDE-OPUS-4-5" = none := by decide
  have hcat2 : lowerOnlyCatalog "anthropic" "claude-opus-4-5" =
      some ⟨some 3, some 15, none, none, none⟩ := by decide
  refine ⟨by decide, by decide, by decide, by decide, by decide, ?_, ?_⟩
  · rw [hmap1]
    simp [mappedCostUsd, calculateCostUsd, hcat1]
  · rw [hmap2]
    simp only [mappedCostUsd, calculateCostUsd, hcat2, jsCoalesce]
    norm_num

/-- C3 amended: for every pair of source identifiers that normalize to the
same canonical model id (for instance identifiers differing only by the
case-insensitive routing prefix, which is stripped), the mapper returns the
same pricing key (independent also of the source provider) and the cost
computed for any fixed bucket and catalog is identical; identifiers
differing only in the letter casing of the remaining model name, however,
need not normalize to the same canonical id. -/
theorem claim_C3_amended (cat : Catalog) (pa pb : Option String) (a b : String)
    (ha : a ≠ "") (hb : b ≠ "") (hn : normalizeModelId a = normalizeModelId b) :
    pricingKeyOf (mapToOfficialPricingKey cat pa (some a)) =
      pricingKeyOf (mapToOfficialPricingKey cat pb (some b))
    ∧ ∀ t, mappedCostUsd cat (mapToOfficialPricingKey cat pa (some a)) t =
        mappedCostUsd cat (mapToOfficialPricingKey cat pb (some b)) t := by
  rw [mapToOfficialPricingKey_some cat pa a ha,
    mapToOfficialPricingKey_some cat pb b hb, hn]
  cases h : inferOfficialProviderFromModelId (normalizeModelId b) with
  | none => exact ⟨rfl, fun t => rfl⟩
  | some p => exact ⟨rfl, fun t => rfl⟩

/-- Witness for C3's amended statement: the same id with and without the
routing prefix in different casings, under an empty catalog. -/
theorem claim_C3_amended_witness :
    pricingKeyOf (mapToOfficialPricingKey (fun _ _ => none) (some "opencode")
        (some "ANTIGRAVITY-claude-x")) =
      pricingKeyOf (mapToOfficialPricingKey (fun _ _ => none) (some "other")
        (some "antigravity-claude-x"))
    ∧ ∀ t, mappedCostUsd (fun _ _ => none)
        (mapToOfficialPricingKey (fun _ _ => none) (some "opencode")
          (some "ANTIGRAVITY-claude-x")) t =
      mappedCostUsd (fun _ _ => none)
        (mapToOfficialPricingKey (fun _ _ => none) (some "other")
          (some "antigravity-claude-x")) t :=
  claim_C3_amended (fun _ _ => none) (some "opencode") (some "other")
    "ANTIGRAVITY-claude-x" "antigravity-claude-x"
    (by decide) (by decide) (by decide)

/-! ## Claim C5: the priced/unknown partition of the aggregation -/

theorem addBuckets_right_swap (p b u : TokenBuckets) :
    addBuckets (addBuckets p b) u = addBuckets (addBuckets p u) b := by
  simp only [addBuckets, TokenBuckets.mk.injEq]
  omega

theorem addBuckets_assoc (p u b : TokenBuckets) :
    addBuckets (addBuckets p u) b = addBuckets p (addBuckets u b) := by
  simp only [addBuckets, TokenBuckets.mk.injEq]
  omega

theorem aggregateStep_totals (cat : Catalog) (idx : String → Option String)
    (s : AggState) (m : Msg) :
    ((aggregateStep cat idx s m).pricedTotals =
        addBuckets s.pricedTotals (messageBuckets m)
      ∧ (aggregateStep cat idx s m).unknownTotals = s.unknownTotals)
    ∨ ((aggregateStep cat idx s m).pricedTotals = s.pricedTotals
      ∧ (aggregateStep cat idx s m).unknownTotals =
          addBuckets s.unknownTotals (messageBuckets m)) := by
  simp only [aggregateStep]
  split
  · right; exact ⟨rfl, rfl⟩
  · split
    · right; exact ⟨rfl, rfl⟩
    · left; exact ⟨rfl, rfl⟩

theorem foldl_totals (cat : Catalog) (idx : String → Option String) :
    ∀ (msgs : List Msg) (s : AggState),
      addBuckets (msgs.foldl (aggregateStep cat idx) s).pricedTotals
          (msgs.foldl (aggregateStep cat idx) s).unknownTotals =
        msgs.foldl (fun acc m => addBuckets acc (messageBuckets m))
          (addBuckets s.pricedTotals s.unknownTotals) := by
  intro msgs
  induction msgs with
  | nil => intro s; rfl
  | cons m rest ih =>
    intro s
    rw [List.foldl_cons, List.foldl_cons, ih]
    congr 1
    rcases aggregateStep_totals cat idx s m with ⟨h1, h2⟩ | ⟨h1, h2⟩
    · rw [h1, h2]
      exact addBuckets_right_swap _ _ _
    · rw [h1, h2]
      exact (addBuckets_assoc _ _ _).symm

/-- The classification a row of the unknown map must satisfy: its stored key
is its map key, and either it is unmappable (no mapped provider; when a
normalized model is attached, no provider could be inferred from it) or it
was mapped but the catalog has no entry for the mapped key. -/
def RowOK (cat : Catalog) (kv : UnknownKey × UnknownRow) : Prop :=
  kv.2.key = kv.1 ∧
    ((kv.1.mappedProvider = none ∧
        ∀ n, kv.1.mappedModel = some n →
          inferOfficialProviderFromModelId n = none) ∨
      (∃ p mo, kv.1.mappedProvider = some p ∧ kv.1.mappedModel = some mo ∧
        cat p mo = none))

theorem upsert_mem_cases {κ α : Type} [DecidableEq κ] (k : κ) (upd : α → α)
    (ini : α) : ∀ (l : List (κ × α)) (kv : κ × α), kv ∈ upsert k upd ini l →
      kv ∈ l ∨ kv = (k, ini) ∨ ∃ a, (k, a) ∈ l ∧ kv = (k, upd a) := by
  intro l
  induction l with
  | nil =>
    intro kv h
    simp only [upsert, List.mem_singleton] at h
    exact Or.inr (Or.inl h)
  | cons p rest ih =>
    obtain ⟨k0, a0⟩ := p
    intro kv h
    by_cases hk : k0 = k
    · simp only [upsert, if_pos hk, List.mem_cons] at h
      rcases h with h | h
      · subst hk
        exact Or.inr (Or.inr ⟨a0, List.mem_cons_self _ _, h⟩)
      · exact Or.inl (List.mem_cons_of_mem _ h)
    · simp only [upsert, if_neg hk, List.mem_cons] at h
      rcases h with h | h
      · exact Or.inl (by simp [h])
      · rcases ih kv h with h1 | h2 | ⟨a, ha, hkv⟩
        · exact Or.inl (List.mem_cons_of_mem _ h1)
        · exact Or.inr (Or.inl h2)
        · exact Or.inr (Or.inr ⟨a, List.mem_cons_of_mem _ ha, hkv⟩)

theorem mapUnknown_spec (cat : Catalog) (pid mid : Option String)
    (u : UnknownKey) (h : mapToOfficialPricingKey cat pid mid = .unknown u) :
    u.mappedProvider = none ∧
      ∀ n, u.mappedModel = some n → inferOfficialProviderFromModelId n = none := by
  cases mid with
  | none =>
    simp only [mapToOfficialPricingKey] at h
    cases h
    exact ⟨rfl, by intro n hn; cases hn⟩
  | some m =>
    simp only [mapToOfficialPricingKey] at h
    by_cases hm : m = ""
    · rw [if_pos hm] at h
      cases h
      exact ⟨rfl, by intro n hn; cases hn⟩
    · rw [if_neg hm] at h
      cases hinf : inferOfficialProviderFromModelId (normalizeModelId m) with
      | none =>
        rw [hinf] at h
        cases h
        refine ⟨rfl, ?_⟩
        intro n hn
        cases hn
        exact hinf
      | some p =>
        rw [hinf] at h
        cases h

theorem calculateCostUsd_none (cat : Catalog) (p mo : String) (t : TokenBuckets)
    (h : calculateCostUsd cat p mo t = none) : cat p mo = none := by
  cases hc : cat p mo with
  | none => rfl
  | some cost => simp [calculateCostUsd, hc] at h

theorem aggregateStep_rows (cat : Catalog) (idx : String → Option String)
    (s : AggState) (m : Msg)
    (hs : ∀ kv ∈ s.unknownRows, RowOK cat kv) :
    ∀ kv ∈ (aggregateStep cat idx s m).unknownRows, RowOK cat kv := by
  simp only [aggregateStep]
  split
  · rename_i u heq
    intro kv hkv
    rcases upsert_mem_cases _ _ _ _ kv hkv with hold | hnew | ⟨a, ha, hkv'⟩
    · exact hs kv hold
    · subst hnew
      exact ⟨rfl, Or.inl (mapUnknown_spec cat _ _ u heq)⟩
    · subst hkv'
      obtain ⟨hkey, hP⟩ := hs (u, a) ha
      exact ⟨hkey, hP⟩
  · rename_i key heq
    split
    · rename_i hc
      intro kv hkv
      rcases upsert_mem_cases _ _ _ _ kv hkv with hold | hnew | ⟨a, ha, hkv'⟩
      · exact hs kv hold
      · subst hnew
        exact ⟨rfl, Or.inr ⟨key.provider, key.model, rfl, rfl,
          calculateCostUsd_none cat key.provider key.model _ hc⟩⟩
      · subst hkv'
        obtain ⟨hkey, hP⟩ :=
          hs (⟨m.providerID.getD "unknown", m.modelID.getD "unknown",
            some key.provider, some key.model⟩, a) ha
        exact ⟨hkey, hP⟩
    · rename_i c hc
      intro kv hkv
      exact hs kv hkv

theorem foldl_rows (cat : Catalog) (idx : String → Option String) :
    ∀ (msgs : List Msg) (s : AggState),
      (∀ kv ∈ s.unknownRows, RowOK cat kv) →
      ∀ kv ∈ (msgs.foldl (aggregateStep cat idx) s).unknownRows, RowOK cat kv := by
  intro msgs
  induction msgs with
  | nil => intro s hs; exact hs
  | cons m rest ih =>
    intro s hs
    exact ih _ (aggregateStep_rows cat idx s m hs)

/-- C5: every record's token bucket goes to exactly one of the priced or
unknown totals (each loop iteration adds the bucket to one total and leaves
the other unchanged), so the componentwise sum of the two totals over a run
equals the componentwise sum of all records' buckets; and every row of the
unknown list either carries no mapped provider (unmappable record — when a
normalized model is attached, no provider could be inferred from it) or
carries the mapped provider and model of a pricing key that has no catalog
entry (mapped-but-unpriced record), so the two causes stay distinguishable. -/
theorem claim_C5_partition (cat : Catalog) (idx : String → Option String)
    (msgs : List Msg) :
    addBuckets (aggregateUsageCore cat idx msgs).pricedTotals
        (aggregateUsageCore cat idx msgs).unknownTotals = bucketsSum msgs
    ∧ (∀ (s : AggState) (m : Msg),
        ((aggregateStep cat idx s m).pricedTotals =
            addBuckets s.pricedTotals (messageBuckets m)
          ∧ (aggregateStep cat idx s m).unknownTotals = s.unknownTotals)
        ∨ ((aggregateStep cat idx s m).pricedTotals = s.pricedTotals
          ∧ (aggregateStep cat idx s m).unknownTotals =
              addBuckets s.unknownTotals (messageBuckets m)))
    ∧ ∀ kv ∈ (aggregateUsageCore cat idx msgs).unknownRows, RowOK cat kv := by
  refine ⟨?_, aggregateStep_totals cat idx, ?_⟩
  · have h := foldl_totals cat idx msgs initAggState
    simpa [aggregateUsageCore, bucketsSum, initAggState, addBuckets,
      emptyBuckets] using h
  · exact foldl_rows cat idx msgs initAggState (by intro kv hkv; cases hkv)

/-! ## Claim C1: the combined result when every account fails -/

/-- A concrete account whose token refresh fails with a revoked token. -/
def failedAccount : AntigravityAccount :=
  ⟨some "a@b.com", "R1", some "proj", none, none⟩

/-- C1 counterexample: with a single account whose per-account task fails
(the initial token refresh reports "Token revoked"), the combined result of
the orchestrator is `success: true` with an empty model list and the error
attached — NOT an overall failure: `queryGoogleQuota` returns its failure
value only when models AND errors are both empty. -/
theorem claim_C1_counterexample :
    (fetchAccountQuotaWithAntigravityRefresh failedAccount
        (.error "Token revoked") (.error (.api 500)) (.error "unused")
        (.error (.api 500))).1.success = false
    ∧ combineGoogleResults
        [(fetchAccountQuotaWithAntigravityRefresh failedAccount
          (.error "Token revoked") (.error (.api 500)) (.error "unused")
          (.error (.api 500))).1] =
        .ok [] (some [⟨"a@b.com", "Token revoked"⟩])
    ∧ ∀ msg, combineGoogleResults
        [(fetchAccountQuotaWithAntigravityRefresh failedAccount
          (.error "Token revoked") (.error (.api 500)) (.error "unused")
          (.error (.api 500))).1] ≠ .fail msg := by
  refine ⟨by decide, by decide, ?_⟩
  intro msg h
  rw [show combineGoogleResults
      [(fetchAccountQuotaWithAntigravityRefresh failedAccount
        (.error "Token revoked") (.error (.api 500)) (.error "unused")
        (.error (.api 500))).1] =
      .ok [] (some [⟨"a@b.com", "Token revoked"⟩]) from by decide] at h
  exact GoogleCombined.noConfusion h

theorem modelContribution_eq_nil (r : AccountFetchResult)
    (h : r.success = false) : modelContribution r = [] := by
  unfold modelContribution
  cases r.models with
  | none => rfl
  | some ms =>
    show (if r.success = true ∧ ms ≠ [] then ms else []) = []
    rw [if_neg]
    rintro ⟨h1, _⟩
    rw [h] at h1
    cases h1

theorem errContribution_eq_singleton (r : AccountFetchResult)
    (hs : r.success = false) (e a : String) (he : r.error = some e)
    (hene : e ≠ "") (ha : r.accountEmail = some a) (hane : a ≠ "") :
    errContribution r = [⟨a, e⟩] := by
  unfold errContribution
  rw [he, ha]
  show (if r.success = false ∧ e ≠ "" ∧ a ≠ "" then
    [(⟨a, e⟩ : GoogleAccountError)] else []) = _
  rw [if_pos ⟨hs, hene, hane⟩]

/-- C1 amended: when every account of a non-empty list fails with a
(non-empty) error and account email, the combined result does carry the
individual per-account errors (one per account) for diagnostics, but it is
reported as `success: true` with an empty model list; the overall failure
value is produced only when no models and no errors were collected at all. -/
theorem claim_C1_amended (results : List AccountFetchResult)
    (hne : results ≠ [])
    (hfail : ∀ r ∈ results, r.success = false ∧
      ∃ e a, r.error = some e ∧ e ≠ "" ∧ r.accountEmail = some a ∧ a ≠ "") :
    ∃ errs : List GoogleAccountError,
      combineGoogleResults results = .ok [] (some errs) ∧ errs ≠ [] ∧
        errs.length = results.length := by
  have hmodels : ∀ (l : List AccountFetchResult), (∀ r ∈ l, r.success = false) →
      (l.map modelContribution).flatten = ([] : List GoogleModelQuota) := by
    intro l
    induction l with
    | nil => intro _; rfl
    | cons r rest ih =>
      intro hl
      simp only [List.map_cons, List.flatten_cons,
        modelContribution_eq_nil r (hl r (List.mem_cons_self _ _)), List.nil_append]
      exact ih (fun r' hr' => hl r' (List.mem_cons_of_mem _ hr'))
  have herrlen : ∀ (l : List AccountFetchResult),
      (∀ r ∈ l, r.success = false ∧
        ∃ e a, r.error = some e ∧ e ≠ "" ∧ r.accountEmail = some a ∧ a ≠ "") →
      ((l.map errContribution).flatten).length = l.length := by
    intro l
    induction l with
    | nil => intro _; rfl
    | cons r rest ih =>
      intro hl
      obtain ⟨hs, e, a, he, hene, ha, hane⟩ := hl r (List.mem_cons_self _ _)
      simp only [List.map_cons, List.flatten_cons, List.length_append,
        errContribution_eq_singleton r hs e a he hene ha hane, List.length_cons,
        List.length_nil, List.length_cons]
      rw [ih (fun r' hr' => hl r' (List.mem_cons_of_mem _ hr'))]
      simp [Nat.add_comm]
  refine ⟨(results.map errContribution).flatten, ?_, ?_, ?_⟩
  · have hm := hmodels results (fun r hr => (hfail r hr).1)
    have he : (results.map errContribution).flatten ≠ [] := by
      intro hc
      have := herrlen results hfail
      rw [hc] at this
      exact hne (List.eq_nil_of_length_eq_zero this.symm)
    unfold combineGoogleResults
    rw [hm, if_neg (fun hh => he hh.2), if_neg he]
  · intro hc
    have := herrlen results hfail
    rw [hc] at this
    exact hne (List.eq_nil_of_length_eq_zero this.symm)
  · exact herrlen results hfail

/-- Witness for C1's amended statement at one concrete failed account. -/
theorem claim_C1_amended_witness :
    ∃ errs : List GoogleAccountError,
      combineGoogleResults [⟨false, none, some "Token revoked", some "a@b.com"⟩] =
        .ok [] (some errs) ∧ errs ≠ [] ∧
        errs.length =
          [(⟨false, none, some "Token revoked", some "a@b.com"⟩ :
            AccountFetchResult)].length :=
  claim_C1_amended [⟨false, none, some "Token revoked", some "a@b.com"⟩]
    (by decide)
    (by
      intro r hr
      rw [List.mem_singleton] at hr
      subst hr
      exact ⟨rfl, "Token revoked", "a@b.com", rfl, by decide, rfl, by decide⟩)

/-! ## Claim C7: exactly one forced refresh-and-retry on auth failure -/

/-- C7: with a resolvable project id and a usable first token, a successful
first quota request means one quota attempt and no forced refresh; a
non-auth failure of the first quota request means failure with no retry; an
auth-class (401/403) failure triggers exactly one cache-bypassing forced
refresh, then — only if that refresh succeeds — exactly one retried quota
request, whose failure is surfaced as the account's outcome with no further
attempt and whose success makes the account successful. -/
theorem claim_C7_auth_retry (account : AntigravityAccount) (tok : String)
    (fetch1 : Except FetchErr (List GoogleModelQuota))
    (refresh2 : Except String RefreshOk)
    (fetch2 : Except FetchErr (List GoogleModelQuota))
    (pid : String) (hpid : effectiveProjectId account = some pid) :
    (∀ ms, fetch1 = .ok ms →
      fetchAccountQuotaWithAntigravityRefresh account (.ok tok) fetch1 refresh2
          fetch2 =
        (⟨true, some ms, none, some (jsOrDefault account.email "Unknown")⟩, 0, 1))
    ∧ (∀ err, fetch1 = .error err → err.isAuthMsg = false →
        (fetchAccountQuotaWithAntigravityRefresh account (.ok tok) fetch1
            refresh2 fetch2).2.1 = 0
        ∧ (fetchAccountQuotaWithAntigravityRefresh account (.ok tok) fetch1
            refresh2 fetch2).2.2 = 1
        ∧ (fetchAccountQuotaWithAntigravityRefresh account (.ok tok) fetch1
            refresh2 fetch2).1.success = false)
    ∧ (∀ st, fetch1 = .error (.auth st) →
        (fetchAccountQuotaWithAntigravityRefresh account (.ok tok) fetch1
            refresh2 fetch2).2.1 = 1
        ∧ (∀ e2, refresh2 = .error e2 →
            fetchAccountQuotaWithAntigravityRefresh account (.ok tok) fetch1
                refresh2 fetch2 =
              (⟨false, none, some e2,
                some (jsOrDefault account.email "Unknown")⟩, 1, 1))
        ∧ (∀ r ms, refresh2 = .ok r → fetch2 = .ok ms →
            fetchAccountQuotaWithAntigravityRefresh account (.ok tok) fetch1
                refresh2 fetch2 =
              (⟨true, some ms, none,
                some (jsOrDefault account.email "Unknown")⟩, 1, 2))
        ∧ (∀ r err2, refresh2 = .ok r → fetch2 = .error err2 →
            (fetchAccountQuotaWithAntigravityRefresh account (.ok tok) fetch1
                refresh2 fetch2).1.success = false
            ∧ (fetchAccountQuotaWithAntigravityRefresh account (.ok tok) fetch1
                refresh2 fetch2).2.1 = 1
            ∧ (fetchAccountQuotaWithAntigravityRefresh account (.ok tok) fetch1
                refresh2 fetch2).2.2 = 2)) := by
  refine ⟨?_, ?_, ?_⟩
  · intro ms h1
    subst h1
    simp [fetchAccountQuotaWithAntigravityRefresh, hpid]
  · intro err h1 hna
    subst h1
    simp [fetchAccountQuotaWithAntigravityRefresh, hpid, hna]
  · intro st h1
    subst h1
    refine ⟨?_, ?_, ?_, ?_⟩
    · cases refresh2 with
      | error e2 => simp [fetchAccountQuotaWithAntigravityRefresh, hpid,
          FetchErr.isAuthMsg]
      | ok r =>
        cases fetch2 with
        | error err2 => simp [fetchAccountQuotaWithAntigravityRefresh, hpid,
            FetchErr.isAuthMsg]
        | ok ms => simp [fetchAccountQuotaWithAntigravityRefresh, hpid,
            FetchErr.isAuthMsg]
    · intro e2 h2
      subst h2
      simp [fetchAccountQuotaWithAntigravityRefresh, hpid, FetchErr.isAuthMsg]
    · intro r ms h2 h3
      subst h2
      subst h3
      simp [fetchAccountQuotaWithAntigravityRefresh, hpid, FetchErr.isAuthMsg]
    · intro r err2 h2 h3
      subst h2
      subst h3
      simp [fetchAccountQuotaWithAntigravityRefresh, hpid, FetchErr.isAuthMsg]

/-- Witness for C7 at a concrete account with an auth failure then a
successful retry. -/
theorem claim_C7_auth_retry_witness :
    (∀ ms, (Except.error (FetchErr.auth 403) :
        Except FetchErr (List GoogleModelQuota)) = .ok ms →
      fetchAccountQuotaWithAntigravityRefresh failedAccount (.ok "tok")
          (.error (.auth 403)) (.ok ⟨"tok2", 3600⟩) (.ok []) =
        (⟨true, some ms, none, some (jsOrDefault failedAccount.email "Unknown")⟩,
          0, 1))
    ∧ (∀ err, (Except.error (FetchErr.auth 403) :
          Except FetchErr (List GoogleModelQuota)) = .error err →
        err.isAuthMsg = false →
        (fetchAccountQuotaWithAntigravityRefresh failedAccount (.ok "tok")
            (.error (.auth 403)) (.ok ⟨"tok2", 3600⟩) (.ok [])).2.1 = 0
        ∧ (fetchAccountQuotaWithAntigravityRefresh failedAccount (.ok "tok")
            (.error (.auth 403)) (.ok ⟨"tok2", 3600⟩) (.ok [])).2.2 = 1
        ∧ (fetchAccountQuotaWithAntigravityRefresh failedAccount (.ok "tok")
            (.error (.auth 403)) (.ok ⟨"tok2", 3600⟩) (.ok [])).1.success = false)
    ∧ (∀ st, (Except.error (FetchErr.auth 403) :
          Except FetchErr (List GoogleModelQuota)) = .error (.auth st) →
        (fetchAccountQuotaWithAntigravityRefresh failedAccount (.ok "tok")
            (.error (.auth 403)) (.ok ⟨"tok2", 3600⟩) (.ok [])).2.1 = 1
        ∧ (∀ e2, (Except.ok (⟨"tok2", 3600⟩ : RefreshOk) :
              Except String RefreshOk) = .error e2 →
            fetchAccountQuotaWithAntigravityRefresh failedAccount (.ok "tok")
                (.error (.auth 403)) (.ok ⟨"tok2", 3600⟩) (.ok []) =
              (⟨false, none, some e2,
                some (jsOrDefault failedAccount.email "Unknown")⟩, 1, 1))
        ∧ (∀ r ms, (Except.ok (⟨"tok2", 3600⟩ : RefreshOk) :
              Except String RefreshOk) = .ok r →
            (Except.ok ([] : List GoogleModelQuota) :
              Except FetchErr (List GoogleModelQuota)) = .ok ms →
            fetchAccountQuotaWithAntigravityRefresh failedAccount (.ok "tok")
                (.error (.auth 403)) (.ok ⟨"tok2", 3600⟩) (.ok []) =
              (⟨true, some ms, none,
                some (jsOrDefault failedAccount.email "Unknown")⟩, 1, 2))
        ∧ (∀ r err2, (Except.ok (⟨"tok2", 3600⟩ : RefreshOk) :
              Except String RefreshOk) = .ok r →
            (Except.ok ([] : List GoogleModelQuota) :
              Except FetchErr (List GoogleModelQuota)) = .error err2 →
            (fetchAccountQuotaWithAntigravityRefresh failedAccount (.ok "tok")
                (.error (.auth 403)) (.ok ⟨"tok2", 3600⟩) (.ok [])).1.success =
              false
            ∧ (fetchAccountQuotaWithAntigravityRefresh failedAccount (.ok "tok")
                (.error (.auth 403)) (.ok ⟨"tok2", 3600⟩) (.ok [])).2.1 = 1
            ∧ (fetchAccountQuotaWithAntigravityRefresh failedAccount (.ok "tok")
                (.error (.auth 403)) (.ok ⟨"tok2", 3600⟩) (.ok [])).2.2 = 2)) :=
  claim_C7_auth_retry failedAccount "tok" (.error (.auth 403))
    (.ok ⟨"tok2", 3600⟩) (.ok []) "proj" (by decide)

/-! ## Claim C8: the worker pool's size, concurrency bound and coverage -/

theorem mem_set_or {α : Type} (b : α) :
    ∀ (l : List α) (i : ℕ) (a : α), a ∈ l.set i b → a ∈ l ∨ a = b := by
  intro l
  induction l with
  | nil => intro i a h; simp [List.set] at h
  | cons c cs ih =>
    intro i a h
    cases i with
    | zero =>
      rw [List.set_cons_zero, List.mem_cons] at h
      rcases h with h | h
      · exact Or.inr h
      · exact Or.inl (List.mem_cons_of_mem _ h)
    | succ n =>
      rw [List.set_cons_succ, List.mem_cons] at h
      rcases h with h | h
      · exact Or.inl (by simp [h])
      · rcases ih n a h with h1 | h1
        · exact Or.inl (List.mem_cons_of_mem _ h1)
        · exact Or.inr h1

theorem poolStep_invariant (M w : ℕ) (s1 s2 : PoolState)
    (hstep : PoolStep M s1 s2) (ih1 : s1.workers.length = w)
    (ih2 : s1.started = List.range (min s1.next M))
    (ih3 : WStatus.done ∈ s1.workers → M < s1.next) :
    s2.workers.length = w ∧ s2.started = List.range (min s2.next M) ∧
      (WStatus.done ∈ s2.workers → M < s2.next) := by
  cases hstep with
  | claim_run i hidle hlt =>
    refine ⟨?_, ?_, ?_⟩
    · simp [List.length_set, ih1]
    · show s1.started ++ [s1.next] = List.range (min (s1.next + 1) M)
      rw [ih2, Nat.min_eq_left (Nat.le_of_lt hlt),
        Nat.min_eq_left (Nat.succ_le_of_lt hlt), List.range_succ]
    · intro hdone
      rcases mem_set_or _ _ _ _ hdone with hmem | heq
      · exact Nat.lt_succ_of_lt (ih3 hmem)
      · cases heq
  | claim_exit i hidle hge =>
    refine ⟨?_, ?_, ?_⟩
    · simp [List.length_set, ih1]
    · show s1.started = List.range (min (s1.next + 1) M)
      rw [ih2, Nat.min_eq_right hge,
        Nat.min_eq_right (Nat.le_succ_of_le hge)]
    · intro _
      exact Nat.lt_succ_of_le hge
  | finish i k hrun =>
    refine ⟨?_, ?_, ?_⟩
    · simp [List.length_set, ih1]
    · exact ih2
    · intro hdone
      rcases mem_set_or _ _ _ _ hdone with hmem | heq
      · exact ih3 hmem
      · cases heq

theorem poolReach_invariant (M w : ℕ) :
    ∀ s, PoolReach M w s →
      s.workers.length = w ∧ s.started = List.range (min s.next M) ∧
        (WStatus.done ∈ s.workers → M < s.next) := by
  intro s h
  unfold PoolReach at h
  induction h with
  | refl =>
    refine ⟨List.length_replicate _ _, by simp [initPool], ?_⟩
    intro hdone
    have := List.eq_of_mem_replicate hdone
    cases this
  | tail hr hstep ih =>
    obtain ⟨ih1, ih2, ih3⟩ := ih
    exact poolStep_invariant M w _ _ hstep ih1 ih2 ih3

/-- C8: the pool consists of exactly `min(max(1, trunc(N)), M)` workers (3
for the source's concurrency constant when at least 3 accounts exist), so in
every reachable state the number of in-flight per-account operations is
bounded by that worker count and hence by `max(1, trunc(N))`; the shared
counter hands out each account index at most once (the claimed-index list is
duplicate-free and within range), and once every worker has exited, every
account index below M has been claimed exactly once. -/
theorem claim_C8_worker_pool (q : ℚ) (M : ℕ) (s : PoolState)
    (h : PoolReach M (workerCount q M) s) :
    workerCount q M = min (max 1 (jsTrunc q)).toNat M
    ∧ workerCount GOOGLE_ACCOUNTS_CONCURRENCY M = min 3 M
    ∧ inFlight s ≤ workerCount q M
    ∧ workerCount q M ≤ (max 1 (jsTrunc q)).toNat
    ∧ s.started.Nodup
    ∧ (∀ k ∈ s.started, k < M)
    ∧ ((∀ w ∈ s.workers, w = WStatus.done) → 1 ≤ M →
        s.started = List.range M) := by
  obtain ⟨hlen, hstarted, hdone⟩ := poolReach_invariant M (workerCount q M) s h
  refine ⟨rfl, ?_, ?_, Nat.min_le_left _ _, ?_, ?_, ?_⟩
  · unfold workerCount GOOGLE_ACCOUNTS_CONCURRENCY jsTrunc
    norm_num
    omega
  · calc inFlight s ≤ s.workers.length := List.length_filter_le _ _
      _ = workerCount q M := hlen
  · rw [hstarted]; exact List.nodup_range _
  · intro k hk
    rw [hstarted] at hk
    exact Nat.lt_of_lt_of_le (List.mem_range.mp hk) (Nat.min_le_right _ _)
  · intro hall hM
    have hw : 1 ≤ workerCount q M := by
      have h1 : (1 : ℤ) ≤ max 1 (jsTrunc q) := le_max_left _ _
      have h2 : 1 ≤ (max 1 (jsTrunc q)).toNat := by omega
      exact le_min h2 hM
    have hpos : 0 < s.workers.length := by rw [hlen]; exact hw
    obtain ⟨w0, hw0⟩ := List.exists_mem_of_length_pos hpos
    have : WStatus.done ∈ s.workers := by
      have := hall w0 hw0
      rw [← this]
      exact hw0
    have hnext := hdone this
    rw [hstarted, Nat.min_eq_right (Nat.le_of_lt hnext)]

/-- Witness for C8 at concurrency 3 and one account, in the initial pool
state. -/
theorem claim_C8_worker_pool_witness :
    workerCount 3 1 = min (max 1 (jsTrunc 3)).toNat 1
    ∧ workerCount GOOGLE_ACCOUNTS_CONCURRENCY 1 = min 3 1
    ∧ inFlight (initPool (workerCount 3 1)) ≤ workerCount 3 1
    ∧ workerCount 3 1 ≤ (max 1 (jsTrunc 3)).toNat
    ∧ (initPool (workerCount 3 1)).started.Nodup
    ∧ (∀ k ∈ (initPool (workerCount 3 1)).started, k < 1)
    ∧ ((∀ w ∈ (initPool (workerCount 3 1)).workers, w = WStatus.done) →
        1 ≤ 1 → (initPool (workerCount 3 1)).started = List.range 1) :=
  claim_C8_worker_pool 3 1 (initPool (workerCount 3 1))
    Relation.ReflTransGen.refl

end OCQ
